import Mathlib

/-!
# Verification of the moneywiz-mcp analytics engine

Shallow embedding of the analytics layer of the moneywiz-mcp Go server.
Monetary amounts (Go `float64`) are modelled as `ℚ`; SQL rows and Go maps
are modelled as lists (a Go map as an insertion-ordered association list,
together with an explicit enumeration-order parameter wherever the Go code
iterates over a map with `range`, since Go randomizes that order).
-/

namespace MoneyWiz

/-! ## Ledger rows (ZSYNCOBJECT transaction rows, as read by the balance query)

`calculateAccountBalance` (database layer) runs
`SELECT COALESCE(SUM(ZAMOUNT1), 0) FROM ZSYNCOBJECT
 WHERE Z_ENT IN (37, 45, 46, 47, 43) AND (ZACCOUNT2 = ? OR ZACCOUNT = ?)
 AND ZAMOUNT1 IS NOT NULL` and returns `opening + sum`.
A row is modelled with exactly the columns that query consults. -/

structure TxnRow where
  ent : Int
  account2 : Option Int
  account : Option Int
  amount1 : Option ℚ
deriving DecidableEq

/-- The transaction entity codes enumerated in the balance query:
regular transactions (37, 45, 46, 47) and transfers (43). -/
def txnEntities : List Int := [37, 45, 46, 47, 43]

/-- The WHERE clause of the balance query:
`Z_ENT IN (37,45,46,47,43) AND (ZACCOUNT2 = ? OR ZACCOUNT = ?) AND ZAMOUNT1 IS NOT NULL`. -/
def matchesBalanceQuery (accountID : Int) (t : TxnRow) : Bool :=
  decide (t.ent ∈ txnEntities) &&
    (t.account2 == some accountID || t.account == some accountID) &&
    t.amount1.isSome

/-- Embeds `SUM(ZAMOUNT1)` over the rows selected by the WHERE clause: each row of the
table contributes at most once, whether one or both link columns match. -/
def sumLinkedAmounts (accountID : Int) : List TxnRow → ℚ
  | [] => 0
  | t :: ts =>
    (if matchesBalanceQuery accountID t then t.amount1.getD 0 else 0) +
      sumLinkedAmounts accountID ts

/-- Embeds `calculateAccountBalance` from the database layer: opening balance
(`0` when the column is NULL) plus the summed linked-transaction amounts.
This is the balance `GetAccounts` / `GetAccountBalance` return. -/
def calculateAccountBalance (accountID : Int) (openingBalance : Option ℚ)
    (rows : List TxnRow) : ℚ :=
  openingBalance.getD 0 + sumLinkedAmounts accountID rows

/-! ## The exchange sort used throughout the repository

Both trend analyzers and the savings analyzer order a slice with the same
nested-loop pattern
`for i { for j := i+1 { if a[i] OP a[j] { swap a[i], a[j] } } }`,
ascending (`OP` is `>`) for period strings and descending (`OP` is `<`)
for category amounts.  It is embedded generically over a key function into a
linear order; the descending case instantiates the key into the dual order. -/

/-- One run of the inner loop for a fixed `i`: `x` is the element currently
held at position `i`, the list holds positions `i+1 ..`.  A swap happens
exactly when the probed slot's key is smaller than the holder's key; the
result is (final element at position `i`, final contents of positions
`i+1 ..`). -/
def bubblePass {α κ : Type} [LinearOrder κ] (key : α → κ) :
    α → List α → α × List α
  | x, [] => (x, [])
  | x, y :: ys =>
    if key y < key x then
      let p := bubblePass key y ys
      (p.1, x :: p.2)
    else
      let p := bubblePass key x ys
      (p.1, y :: p.2)

/-- The outer loop of the exchange sort, structurally recursive on the number
of remaining outer iterations (`bubblePass` preserves length, so running it
`l.length` times consumes the whole list). -/
def exchSortFuel {α κ : Type} [LinearOrder κ] (key : α → κ) :
    Nat → List α → List α
  | 0, _ => []
  | _ + 1, [] => []
  | fuel + 1, x :: xs =>
    let p := bubblePass key x xs
    p.1 :: exchSortFuel key fuel p.2

/-- The full nested-loop exchange sort (ascending by `key`). -/
def exchSort {α κ : Type} [LinearOrder κ] (key : α → κ) (l : List α) :
    List α :=
  exchSortFuel key l.length l

/-! ## Trend aggregation (`AnalyzeSpendingTrends` / `AnalyzeIncomeTrends`)

`SpendingData` and `IncomeData` rows carry the same fields, and the two
analyzer bodies are line-for-line identical up to the name of the total field
(`TotalSpending` / `TotalIncome`), so one record type and one aggregation
function embed both; the two source functions are named as aliases of it.
The Go `map[string]*Trend` is modelled as an insertion-ordered association
list (the final exchange sort on the distinct period keys makes the output
independent of map enumeration order) and the inner `map[string]float64`
`ByCategory` as a finitely-supported function updated pointwise. -/

structure TxnData where
  categoryID : Int
  categoryName : String
  amount : ℚ
  date : String
  month : String
  year : String
deriving DecidableEq

structure TrendRecord where
  period : String
  total : ℚ
  transactionCount : Nat
  byCategory : String → ℚ

/-- The period key selected inside the grouping loop:
`if groupBy == "year" { period = t.Year } else { period = t.Month }`. -/
def periodOf (groupBy : String) (t : TxnData) : String :=
  if groupBy = "year" then t.year else t.month

/-- Embeds `if groupBy != "month" && groupBy != "year" { groupBy = "month" }`. -/
def normGroupBy (groupBy : String) : String :=
  if groupBy ≠ "month" ∧ groupBy ≠ "year" then "month" else groupBy

/-- One grouping-loop iteration on the association list standing in for
`trendsMap`: find the record for period `p` (creating it if absent) and add
the transaction's amount to its running total, its count, and its
per-category total for `cat`. -/
def addTrendRecord (p cat : String) (amt : ℚ) :
    List TrendRecord → List TrendRecord
  | [] => [⟨p, amt, 1, fun c => if c = cat then amt else 0⟩]
  | r :: rs =>
    if r.period = p then
      ⟨r.period, r.total + amt, r.transactionCount + 1,
        fun c => if c = cat then r.byCategory c + amt else r.byCategory c⟩ :: rs
    else
      r :: addTrendRecord p cat amt rs

/-- The grouping loop: transactions whose selected period field is empty are
skipped (`if period == "" { continue }`); the rest are folded into the map. -/
def groupTrends (gb : String) (data : List TxnData) : List TrendRecord :=
  data.foldl
    (fun acc t =>
      if periodOf gb t = "" then acc
      else addTrendRecord (periodOf gb t) t.categoryName t.amount acc)
    []

/-- Shared body of `AnalyzeSpendingTrends` and `AnalyzeIncomeTrends`:
normalize `groupBy`, group, convert the map to a slice and exchange-sort it
ascending by period string. -/
def analyzeTrends (groupBy : String) (data : List TxnData) : List TrendRecord :=
  exchSort (fun r => r.period) (groupTrends (normGroupBy groupBy) data)

/-- Embeds `AnalyzeSpendingTrends` (spending.go); `total` is its `TotalSpending`. -/
def analyzeSpendingTrends : String → List TxnData → List TrendRecord :=
  analyzeTrends

/-- Embeds `AnalyzeIncomeTrends` (income.go); `total` is its `TotalIncome`. -/
def analyzeIncomeTrends : String → List TxnData → List TrendRecord :=
  analyzeTrends

/-! ## Savings analysis (`AnalyzeSavings` / `generateSavingsRecommendations`)

Amounts are exact rationals, so the Go float literals `0.20`, `0.10`, `0.05`
become `2/10`, `1/10`, `5/100`.  Recommendation `Description` strings are
`fmt.Sprintf` renderings of already-computed numbers (plus, for the
category rule, the category name that already appears in the `Title`);
the record carries those interpolated numbers in `descNums` instead of
modelling float formatting.

`AnalyzeSavings` iterates with `range` over the Go map
`spendingAmountByCategory`, whose enumeration order Go randomizes per run;
the embedding takes that enumeration order of the category keys as an
explicit `order` argument. -/

structure CategorySpending where
  categoryName : String
  totalAmount : ℚ
  percentage : ℚ
  transactionCount : Nat
deriving DecidableEq

structure SavingsRecommendation where
  type : String
  title : String
  priority : String
  impact : ℚ
  descNums : List ℚ
deriving DecidableEq

structure SavingsAnalysis where
  months : Int
  totalIncome : ℚ
  totalSpending : ℚ
  netSavings : ℚ
  savingsRate : ℚ
  averageMonthlyIncome : ℚ
  averageMonthlySpending : ℚ
  topSpendingCategories : List CategorySpending
  recommendations : List SavingsRecommendation
deriving DecidableEq

/-- The value `spendingAmountByCategory[name]` after the accumulation loop:
the summed amount of the spending rows carrying that category name. -/
def catAmount (spendingData : List TxnData) (name : String) : ℚ :=
  ((spendingData.filter (fun s => s.categoryName = name)).map
    (fun s => s.amount)).sum

/-- The value `spendingByCategory[name]` after the accumulation loop:
the number of spending rows carrying that category name. -/
def catCount (spendingData : List TxnData) (name : String) : Nat :=
  (spendingData.filter (fun s => s.categoryName = name)).length

/-- Go's local `catSpend` record inside `AnalyzeSavings`. -/
structure CatSpend where
  name : String
  amount : ℚ
  count : Nat
deriving DecidableEq

/-- Build `topCategories` by ranging over the category map in the given
enumeration order, then exchange-sort descending by amount (the Go inner
loop swaps when `topCategories[i].amount < topCategories[j].amount`, which
is ascending in the dual order of the amount). -/
def topCategoriesOf (spendingData : List TxnData) (order : List String) :
    List CatSpend :=
  exchSort (fun c => OrderDual.toDual c.amount)
    (order.map (fun n => ⟨n, catAmount spendingData n, catCount spendingData n⟩))

/-- Take the top 5 (fewer when fewer exist) and attach each category's
percentage of total spending (0 when total spending is not positive). -/
def mkTopSpendingCategories (totalSpending : ℚ) (cats : List CatSpend) :
    List CategorySpending :=
  (cats.take 5).map (fun c =>
    ⟨c.name, c.amount,
      if totalSpending > 0 then c.amount / totalSpending * 100 else 0,
      c.count⟩)

/-- The savings-rate computation of `AnalyzeSavings`: the rate starts at 0
and is only assigned `netSavings / totalIncome * 100` when `totalIncome > 0`,
so non-positive income yields exactly 0 (no division by zero). -/
def savingsRateCalc (totalIncome totalSpending : ℚ) : ℚ :=
  if totalIncome > 0 then (totalIncome - totalSpending) / totalIncome * 100
  else 0

/-- The savings-rate tier block of `generateSavingsRecommendations`: an
if/else-if chain appending exactly one record. -/
def tierRecsOf (savingsRate totalIncome totalSpending : ℚ) :
    List SavingsRecommendation :=
  if savingsRate < 0 then
    [⟨"warning", "Negative Savings Rate", "high",
      |totalSpending - totalIncome|, [savingsRate]⟩]
  else if savingsRate < 10 then
    [⟨"warning", "Low Savings Rate", "high",
      totalIncome * (2/10) - (totalIncome - totalSpending), [savingsRate]⟩]
  else if savingsRate < 20 then
    [⟨"suggestion", "Moderate Savings Rate", "medium",
      totalIncome * (2/10) - (totalIncome - totalSpending), [savingsRate]⟩]
  else
    [⟨"positive", "Excellent Savings Rate", "low", 0, [savingsRate]⟩]

/-- The top-spending-category block (`if len(topCategories) > 0`): the
review-top-category rule followed by the multiple-high-spending rule. -/
def categoryRecsOf (avgMonthlySpending : ℚ)
    (topCategories : List CategorySpending) (months : Int) :
    List SavingsRecommendation :=
  match topCategories with
  | [] => []
  | topCategory :: rest =>
    (if topCategory.percentage > 30 then
      [⟨"suggestion", "Review Spending on " ++ topCategory.categoryName,
        "medium", topCategory.totalAmount * (1/10),
        [topCategory.percentage,
          topCategory.totalAmount * (1/10) / (months : ℚ)]⟩]
    else []) ++
    (if 3 ≤ ((topCategory :: rest).filter
        (fun c => c.percentage > 15)).length then
      [⟨"suggestion", "Multiple High-Spending Categories", "medium",
        avgMonthlySpending * (5/100),
        [(((topCategory :: rest).filter
            (fun c => c.percentage > 15)).length : ℚ)]⟩]
    else [])

/-- The spending-ratio block: fires when average monthly spending exceeds
90% of average monthly income (ratio 0 when income is not positive). -/
def ratioRecsOf (avgMonthlyIncome avgMonthlySpending : ℚ) :
    List SavingsRecommendation :=
  if (if avgMonthlyIncome > 0
      then avgMonthlySpending / avgMonthlyIncome * 100 else 0) > 90 then
    [⟨"warning", "High Spending Ratio", "high",
      avgMonthlySpending * (1/10),
      [if avgMonthlyIncome > 0
        then avgMonthlySpending / avgMonthlyIncome * 100 else 0]⟩]
  else []

/-- The emergency-fund block: fires when both monthly averages are positive
and fewer than 3 months of expenses are saved. -/
def emergencyRecsOf (totalIncome totalSpending avgMonthlyIncome
    avgMonthlySpending : ℚ) : List SavingsRecommendation :=
  if avgMonthlyIncome > 0 ∧ avgMonthlySpending > 0 ∧
      (totalIncome - totalSpending) / avgMonthlySpending < 3 then
    [⟨"suggestion", "Build Emergency Fund", "high", avgMonthlySpending * 3,
      [avgMonthlySpending,
        (totalIncome - totalSpending) / avgMonthlySpending]⟩]
  else []

/-- Embeds `generateSavingsRecommendations`: the four savings-rate tiers, then the
top-category rules, the spending-ratio rule and the emergency-fund rule,
appended in that fixed order. -/
def generateSavingsRecommendations (savingsRate totalIncome totalSpending
    avgMonthlyIncome avgMonthlySpending : ℚ)
    (topCategories : List CategorySpending) (months : Int) :
    List SavingsRecommendation :=
  tierRecsOf savingsRate totalIncome totalSpending ++
    categoryRecsOf avgMonthlySpending topCategories months ++
    ratioRecsOf avgMonthlyIncome avgMonthlySpending ++
    emergencyRecsOf totalIncome totalSpending avgMonthlyIncome
      avgMonthlySpending

/-- Embeds `AnalyzeSavings`, given the income and spending rows the two data
queries returned and the enumeration order of the category map. -/
def analyzeSavings (months0 : Int) (incomeData spendingData : List TxnData)
    (order : List String) : SavingsAnalysis :=
  let months := if months0 ≤ 0 then 6 else months0
  let totalIncome := (incomeData.map (fun i => i.amount)).sum
  let totalSpending := (spendingData.map (fun s => s.amount)).sum
  let savingsRate := savingsRateCalc totalIncome totalSpending
  let averageMonthlyIncome := totalIncome / (months : ℚ)
  let averageMonthlySpending := totalSpending / (months : ℚ)
  let topSpendingCategories :=
    mkTopSpendingCategories totalSpending (topCategoriesOf spendingData order)
  { months := months
    totalIncome := totalIncome
    totalSpending := totalSpending
    netSavings := totalIncome - totalSpending
    savingsRate := savingsRate
    averageMonthlyIncome := averageMonthlyIncome
    averageMonthlySpending := averageMonthlySpending
    topSpendingCategories := topSpendingCategories
    recommendations := generateSavingsRecommendations savingsRate totalIncome
      totalSpending averageMonthlyIncome averageMonthlySpending
      topSpendingCategories months }

/-- The titles of the four mutually exclusive savings-rate tier
recommendations. -/
def tierTitles : List String :=
  ["Negative Savings Rate", "Low Savings Rate", "Moderate Savings Rate",
   "Excellent Savings Rate"]

/-- Scenario data: one income transaction of 1000. -/
def incomeScenario : List TxnData := [⟨0, "Salary", 1000, "", "2024-01", "2024"⟩]

/-- Scenario data: one spending transaction of 1200 in category "X". -/
def spendingScenario : List TxnData := [⟨0, "X", 1200, "", "2024-01", "2024"⟩]

/-- Two spending categories with tied totals (100 each). -/
def spendingTied : List TxnData :=
  [⟨0, "A", 100, "", "2024-01", "2024"⟩, ⟨0, "B", 100, "", "2024-01", "2024"⟩]

/-- Two spending categories with distinct totals (100 and 50). -/
def spendingDistinct : List TxnData :=
  [⟨0, "A", 100, "", "2024-01", "2024"⟩, ⟨0, "B", 50, "", "2024-01", "2024"⟩]

/-! ## Net worth (`CalculateNetWorth`)

The Go loop walks the accounts once, accumulating `totalAssets`,
`totalLiabilities`, the `byCurrency` map (modelled as a finitely-supported
function) and the summary list; each accumulator is embedded as its own
recursion over the account list (ℚ addition is commutative and associative,
so the accumulation order is immaterial). -/

structure Account where
  id : Int
  name : String
  balance : ℚ
  currency : String
  accountType : String
deriving DecidableEq

structure AccountSummary where
  id : Int
  name : String
  balance : ℚ
  currency : String
  type : String
deriving DecidableEq

structure NetWorth where
  totalAssets : ℚ
  totalLiabilities : ℚ
  netWorth : ℚ
  accountCount : Nat
  byCurrency : String → ℚ
  accounts : List AccountSummary

/-- The accumulator `totalAssets` after the loop: each balance `>= 0` is added. -/
def totalAssetsOf : List Account → ℚ
  | [] => 0
  | a :: rest => (if a.balance ≥ 0 then a.balance else 0) + totalAssetsOf rest

/-- The accumulator `totalLiabilities` after the loop: `math.Abs` of each negative balance
is added. -/
def totalLiabilitiesOf : List Account → ℚ
  | [] => 0
  | a :: rest =>
    (if a.balance ≥ 0 then 0 else |a.balance|) + totalLiabilitiesOf rest

/-- The value `byCurrency[c]` after the loop: signed balances accumulate under the
account's currency code, skipped when the code is empty. -/
def byCurrencyOf : List Account → String → ℚ
  | [], _ => 0
  | a :: rest, c =>
    (if a.currency ≠ "" ∧ a.currency = c then a.balance else 0) +
      byCurrencyOf rest c

/-- The per-account summary list, in retrieval order. -/
def accountSummariesOf (accounts : List Account) : List AccountSummary :=
  accounts.map (fun a => ⟨a.id, a.name, a.balance, a.currency, a.accountType⟩)

/-- Embeds `CalculateNetWorth` over the accounts `GetAccounts` returned. -/
def calculateNetWorth (accounts : List Account) : NetWorth :=
  { totalAssets := totalAssetsOf accounts
    totalLiabilities := totalLiabilitiesOf accounts
    netWorth := totalAssetsOf accounts - totalLiabilitiesOf accounts
    accountCount := accounts.length
    byCurrency := byCurrencyOf accounts
    accounts := accountSummariesOf accounts }

/-- The round-trip scenario accounts: balances +500, −200, +0 with
currencies "USD", "USD", "". -/
def nwScenario : List Account :=
  [⟨1, "Checking", 500, "USD", "BankChequeAccount"⟩,
   ⟨2, "Card", -200, "USD", "CreditCardAccount"⟩,
   ⟨3, "Cash", 0, "", "CashAccount"⟩]

/-! ## Tool handlers (`server` package)

All nine handlers share one shape: call the database layer, and on error
return a result payload whose single text content is `"Error: " ++ msg`
with `IsError: true` and a `nil` Go error; on success marshal the value
(`json.MarshalIndent` cannot fail on these value types, so it is passed in
as a total rendering function) and return it as a non-error payload with a
`nil` Go error.  The two handlers the claim cites are embedded; the Go
`(T, error)` return is `Except String T`, the handler's own `error` result
is `Option String`. -/

structure CallToolResult where
  content : List String
  isError : Bool
deriving DecidableEq

/-- Embeds `handleAnalyzeSpendingTrends` (server.go). -/
def handleAnalyzeSpendingTrends (render : List TrendRecord → String)
    (dbResult : Except String (List TrendRecord)) :
    CallToolResult × Option String :=
  match dbResult with
  | .error e => (⟨["Error: " ++ e], true⟩, none)
  | .ok trends => (⟨[render trends], false⟩, none)

/-- Embeds `handleCalculateNetWorth` (stats_handlers.go). -/
def handleCalculateNetWorth (render : NetWorth → String)
    (dbResult : Except String NetWorth) : CallToolResult × Option String :=
  match dbResult with
  | .error e => (⟨["Error: " ++ e], true⟩, none)
  | .ok nw => (⟨[render nw], false⟩, none)

/-- The limit-parameter handling of `handleListTransactions`
(server.go): `limit := request.GetInt("limit", 50)` — the default 50 when
the parameter is absent — followed by `if limit == 0 { limit = 50 }`; the
result is handed to `db.GetTransactions` unchanged. -/
def listTransactionsQueryLimit (limitParam : Option Int) : Int :=
  let limit := limitParam.getD 50
  if limit = 0 then 50 else limit

/-! # Theorems -/

theorem sumLinkedAmounts_eq_filter_sum (accountID : Int) (rows : List TxnRow) :
    sumLinkedAmounts accountID rows =
      ((rows.filter (matchesBalanceQuery accountID)).map
        (fun t => t.amount1.getD 0)).sum := by
  induction rows with
  | nil => simp [sumLinkedAmounts]
  | cons t ts ih =>
    by_cases h : matchesBalanceQuery accountID t <;>
      simp [sumLinkedAmounts, List.filter_cons, h, ih]

theorem bubblePass_length {α κ : Type} [LinearOrder κ] (key : α → κ)
    (x : α) (xs : List α) : ((bubblePass key x xs).2).length = xs.length := by
  induction xs generalizing x with
  | nil => rfl
  | cons y ys ih => by_cases h : key y < key x <;> simp [bubblePass, h, ih]

theorem bubblePass_perm {α κ : Type} [LinearOrder κ] (key : α → κ)
    (x : α) (xs : List α) :
    ((bubblePass key x xs).1 :: (bubblePass key x xs).2).Perm (x :: xs) := by
  induction xs generalizing x with
  | nil => exact List.Perm.refl _
  | cons y ys ih =>
    by_cases h : key y < key x
    · simp only [bubblePass, if_pos h]
      exact (List.Perm.swap x _ _).trans ((ih y).cons x)
    · simp only [bubblePass, if_neg h]
      exact ((List.Perm.swap y _ _).trans ((ih x).cons y)).trans
        (List.Perm.swap x y ys)

theorem bubblePass_min {α κ : Type} [LinearOrder κ] (key : α → κ)
    (x : α) (xs : List α) :
    ∀ z ∈ x :: xs, key (bubblePass key x xs).1 ≤ key z := by
  induction xs generalizing x with
  | nil =>
    intro z hz
    rw [List.mem_singleton] at hz
    subst hz
    simp [bubblePass]
  | cons y ys ih =>
    intro z hz
    by_cases h : key y < key x
    · simp only [bubblePass, if_pos h]
      rcases List.mem_cons.mp hz with rfl | hz'
      · exact le_trans (ih y y (List.mem_cons_self y ys)) (le_of_lt h)
      · exact ih y z hz'
    · simp only [bubblePass, if_neg h]
      rcases List.mem_cons.mp hz with heq | hz'
      · rw [heq]
        exact ih x x (List.mem_cons_self x ys)
      · rcases List.mem_cons.mp hz' with heq | hz''
        · rw [heq]
          exact le_trans (ih x x (List.mem_cons_self x ys)) (le_of_not_lt h)
        · exact ih x z (List.mem_cons.mpr (Or.inr hz''))

theorem exchSortFuel_perm {α κ : Type} [LinearOrder κ] (key : α → κ) :
    ∀ (n : ℕ) (l : List α), l.length = n → (exchSortFuel key n l).Perm l := by
  intro n
  induction n with
  | zero =>
    intro l hl
    rw [List.length_eq_zero] at hl
    subst hl
    exact List.Perm.refl _
  | succ n ih =>
    intro l hl
    cases l with
    | nil => simp at hl
    | cons x xs =>
      simp only [exchSortFuel]
      have hlen : ((bubblePass key x xs).2).length = n := by
        rw [bubblePass_length]
        simpa using hl
      exact ((ih _ hlen).cons _).trans (bubblePass_perm key x xs)

theorem exchSort_perm {α κ : Type} [LinearOrder κ] (key : α → κ)
    (l : List α) : (exchSort key l).Perm l :=
  exchSortFuel_perm key l.length l rfl

theorem exchSortFuel_sorted {α κ : Type} [LinearOrder κ] (key : α → κ) :
    ∀ (n : ℕ) (l : List α), l.length = n →
      (exchSortFuel key n l).Pairwise (fun a b => key a ≤ key b) := by
  intro n
  induction n with
  | zero =>
    intro l hl
    rw [List.length_eq_zero] at hl
    subst hl
    simp [exchSortFuel]
  | succ n ih =>
    intro l hl
    cases l with
    | nil => simp at hl
    | cons x xs =>
      simp only [exchSortFuel]
      have hlen : ((bubblePass key x xs).2).length = n := by
        rw [bubblePass_length]
        simpa using hl
      refine List.Pairwise.cons ?_ (ih _ hlen)
      intro b hb
      have hb2 : b ∈ (bubblePass key x xs).2 :=
        ((exchSortFuel_perm key n _ hlen).mem_iff).mp hb
      have hbx : b ∈ x :: xs :=
        (bubblePass_perm key x xs).mem_iff.mp (List.mem_cons.mpr (Or.inr hb2))
      exact bubblePass_min key x xs b hbx

theorem exchSort_sorted {α κ : Type} [LinearOrder κ] (key : α → κ)
    (l : List α) : (exchSort key l).Pairwise (fun a b => key a ≤ key b) :=
  exchSortFuel_sorted key l.length l rfl

theorem sorted_perm_nodupKey_eq {α κ : Type} [LinearOrder κ] (key : α → κ) :
    ∀ (l₁ l₂ : List α), l₁.Perm l₂ →
      l₁.Pairwise (fun a b => key a ≤ key b) →
      l₂.Pairwise (fun a b => key a ≤ key b) →
      (l₁.map key).Nodup → l₁ = l₂ := by
  intro l₁
  induction l₁ with
  | nil =>
    intro l₂ hperm _ _ _
    exact (hperm.symm.eq_nil).symm
  | cons a t₁ ih =>
    intro l₂ hperm hs₁ hs₂ hnd
    cases l₂ with
    | nil => simpa using hperm.eq_nil
    | cons b t₂ =>
      have hab : a = b := by
        have ha2 : a ∈ b :: t₂ := hperm.mem_iff.mp (List.mem_cons_self a t₁)
        have hb1 : b ∈ a :: t₁ := hperm.mem_iff.mpr (List.mem_cons_self b t₂)
        rcases List.mem_cons.mp ha2 with h | ha2'
        · exact h
        rcases List.mem_cons.mp hb1 with h | hb1'
        · exact h.symm
        exfalso
        have h1 : key a ≤ key b := List.rel_of_pairwise_cons hs₁ hb1'
        have h2 : key b ≤ key a := List.rel_of_pairwise_cons hs₂ ha2'
        have hk : key a = key b := le_antisymm h1 h2
        have hmem : key b ∈ t₁.map key := List.mem_map_of_mem key hb1'
        rw [← hk] at hmem
        exact (List.nodup_cons.mp (by simpa using hnd)).1 hmem
      subst hab
      have ht := ih t₂ hperm.cons_inv hs₁.of_cons hs₂.of_cons
        (List.nodup_cons.mp (by simpa using hnd)).2
      rw [ht]

theorem exchSort_eq_of_perm {α κ : Type} [LinearOrder κ] (key : α → κ)
    (l₁ l₂ : List α) (hperm : l₁.Perm l₂) (hnd : (l₁.map key).Nodup) :
    exchSort key l₁ = exchSort key l₂ := by
  refine sorted_perm_nodupKey_eq key _ _ ?_ (exchSort_sorted key l₁)
    (exchSort_sorted key l₂) ?_
  · exact (exchSort_perm key l₁).trans (hperm.trans (exchSort_perm key l₂).symm)
  · exact ((List.Perm.map key (exchSort_perm key l₁)).nodup_iff).mpr hnd

/-- C1: the computed balance of an account equals its opening balance `O` plus
the sum of the amounts of every transaction row whose account-link columns
(`ZACCOUNT2`, `ZACCOUNT`) reference the account (OR semantics over the two
columns), and each matching row — even one whose two link columns both equal
the account id — contributes its amount exactly once to the balance. -/
theorem C1_balance_invariant (accountID : Int) (O : ℚ) (rows : List TxnRow) :
    (calculateAccountBalance accountID (some O) rows =
      O + ((rows.filter (matchesBalanceQuery accountID)).map
            (fun t => t.amount1.getD 0)).sum) ∧
    (∀ t : TxnRow, ∀ a : ℚ, t.ent ∈ txnEntities → t.amount1 = some a →
      (t.account2 = some accountID ∨ t.account = some accountID) →
      calculateAccountBalance accountID (some O) (t :: rows) =
        calculateAccountBalance accountID (some O) rows + a) := by
  constructor
  · rw [calculateAccountBalance, sumLinkedAmounts_eq_filter_sum]
    rfl
  · intro t a hent hamt hlink
    have hmatch : matchesBalanceQuery accountID t = true := by
      rcases hlink with h | h <;>
        simp [matchesBalanceQuery, hent, h, hamt]
    simp [calculateAccountBalance, sumLinkedAmounts, hmatch, hamt]
    ring

/-- Witness for C1: a transfer row whose two link columns both reference
account 1 raises the balance by its amount exactly once. -/
theorem C1_balance_invariant_witness :
    calculateAccountBalance 1 (some 10) [⟨37, some 1, some 1, some 5⟩] =
      calculateAccountBalance 1 (some 10) [] + 5 :=
  (C1_balance_invariant 1 10 []).2 ⟨37, some 1, some 1, some 5⟩ 5 (by decide)
    rfl (Or.inl rfl)

theorem addTrendRecord_countSum (p cat : String) (amt : ℚ)
    (rs : List TrendRecord) :
    ((addTrendRecord p cat amt rs).map (fun r => r.transactionCount)).sum =
      ((rs.map (fun r => r.transactionCount)).sum) + 1 := by
  induction rs with
  | nil => simp [addTrendRecord]
  | cons r rs ih =>
    by_cases h : r.period = p <;> simp [addTrendRecord, h, ih] <;> omega

theorem addTrendRecord_totalSum (p cat : String) (amt : ℚ)
    (rs : List TrendRecord) :
    ((addTrendRecord p cat amt rs).map (fun r => r.total)).sum =
      ((rs.map (fun r => r.total)).sum) + amt := by
  induction rs with
  | nil => simp [addTrendRecord]
  | cons r rs ih =>
    by_cases h : r.period = p <;> simp [addTrendRecord, h, ih] <;> ring

theorem groupTrendsFold_countSum (gb : String) (data : List TxnData) :
    ∀ acc : List TrendRecord,
      ((data.foldl
        (fun acc t =>
          if periodOf gb t = "" then acc
          else addTrendRecord (periodOf gb t) t.categoryName t.amount acc)
        acc).map (fun r => r.transactionCount)).sum =
      ((acc.map (fun r => r.transactionCount)).sum) +
        (data.filter (fun t => periodOf gb t ≠ "")).length := by
  induction data with
  | nil => intro acc; simp
  | cons t ts ih =>
    intro acc
    by_cases h : periodOf gb t = "" <;>
      simp [List.foldl_cons, h, ih, addTrendRecord_countSum, List.filter_cons] <;>
      omega

theorem groupTrendsFold_totalSum (gb : String) (data : List TxnData) :
    ∀ acc : List TrendRecord,
      ((data.foldl
        (fun acc t =>
          if periodOf gb t = "" then acc
          else addTrendRecord (periodOf gb t) t.categoryName t.amount acc)
        acc).map (fun r => r.total)).sum =
      ((acc.map (fun r => r.total)).sum) +
        ((data.filter (fun t => periodOf gb t ≠ "")).map
          (fun t => t.amount)).sum := by
  induction data with
  | nil => intro acc; simp
  | cons t ts ih =>
    intro acc
    by_cases h : periodOf gb t = "" <;>
      simp [List.foldl_cons, h, ih, addTrendRecord_totalSum, List.filter_cons] <;>
      ring

theorem analyzeTrends_partition (groupBy : String) (data : List TxnData) :
    ((analyzeTrends groupBy data).map (fun r => r.transactionCount)).sum =
      (data.filter (fun t => periodOf (normGroupBy groupBy) t ≠ "")).length ∧
    ((analyzeTrends groupBy data).map (fun r => r.total)).sum =
      ((data.filter (fun t => periodOf (normGroupBy groupBy) t ≠ "")).map
        (fun t => t.amount)).sum := by
  have hperm := exchSort_perm (fun r : TrendRecord => r.period)
    (groupTrends (normGroupBy groupBy) data)
  constructor
  · have := (hperm.map (fun r : TrendRecord => r.transactionCount)).sum_eq
    rw [analyzeTrends, this, groupTrends, groupTrendsFold_countSum]
    simp
  · have := (hperm.map (fun r : TrendRecord => r.total)).sum_eq
    rw [analyzeTrends, this, groupTrends, groupTrendsFold_totalSum]
    simp

/-- C2: trend aggregation partitions its input — summed per-period transaction
counts equal the number of input transactions whose selected period field is
non-empty, summed per-period totals equal the summed amounts of those same
transactions, and an empty input yields an empty list; this holds for both
`AnalyzeSpendingTrends` and `AnalyzeIncomeTrends`. -/
theorem C2_trend_partition (groupBy : String) (data : List TxnData) :
    (((analyzeSpendingTrends groupBy data).map
        (fun r => r.transactionCount)).sum =
      (data.filter (fun t => periodOf (normGroupBy groupBy) t ≠ "")).length ∧
     ((analyzeSpendingTrends groupBy data).map (fun r => r.total)).sum =
      ((data.filter (fun t => periodOf (normGroupBy groupBy) t ≠ "")).map
        (fun t => t.amount)).sum ∧
     analyzeSpendingTrends groupBy [] = []) ∧
    (((analyzeIncomeTrends groupBy data).map
        (fun r => r.transactionCount)).sum =
      (data.filter (fun t => periodOf (normGroupBy groupBy) t ≠ "")).length ∧
     ((analyzeIncomeTrends groupBy data).map (fun r => r.total)).sum =
      ((data.filter (fun t => periodOf (normGroupBy groupBy) t ≠ "")).map
        (fun t => t.amount)).sum ∧
     analyzeIncomeTrends groupBy [] = []) := by
  have h := analyzeTrends_partition groupBy data
  have hempty : analyzeTrends groupBy [] = [] := rfl
  exact ⟨⟨h.1, h.2, hempty⟩, ⟨h.1, h.2, hempty⟩⟩

theorem addTrendRecord_keys (p cat : String) (amt : ℚ) (rs : List TrendRecord) :
    (addTrendRecord p cat amt rs).map (fun r => r.period) =
      if p ∈ rs.map (fun r => r.period) then rs.map (fun r => r.period)
      else rs.map (fun r => r.period) ++ [p] := by
  induction rs with
  | nil => simp [addTrendRecord]
  | cons r rs ih =>
    by_cases h : r.period = p
    · simp [addTrendRecord, h]
    · by_cases hmem : p ∈ rs.map (fun r => r.period) <;>
        simp [addTrendRecord, h, ih, hmem, Ne.symm h]

theorem addTrendRecord_keys_nodup (p cat : String) (amt : ℚ)
    (rs : List TrendRecord) (hnd : (rs.map (fun r => r.period)).Nodup) :
    ((addTrendRecord p cat amt rs).map (fun r => r.period)).Nodup := by
  rw [addTrendRecord_keys]
  by_cases hmem : p ∈ rs.map (fun r => r.period)
  · simpa [hmem] using hnd
  · simp only [hmem, if_false]
    simp [List.nodup_append, hnd, hmem]

theorem groupTrendsFold_keys_nodup (gb : String) (data : List TxnData) :
    ∀ acc : List TrendRecord, (acc.map (fun r => r.period)).Nodup →
      ((data.foldl
        (fun acc t =>
          if periodOf gb t = "" then acc
          else addTrendRecord (periodOf gb t) t.categoryName t.amount acc)
        acc).map (fun r => r.period)).Nodup := by
  induction data with
  | nil => intro acc h; simpa using h
  | cons t ts ih =>
    intro acc h
    by_cases hp : periodOf gb t = ""
    · simpa [List.foldl_cons, hp] using ih acc h
    · simpa [List.foldl_cons, hp] using
        ih _ (addTrendRecord_keys_nodup (periodOf gb t) t.categoryName t.amount acc h)

theorem analyzeTrends_keys_nodup (groupBy : String) (data : List TxnData) :
    ((analyzeTrends groupBy data).map (fun r => r.period)).Nodup := by
  have hnd : ((groupTrends (normGroupBy groupBy) data).map
      (fun r => r.period)).Nodup := by
    rw [groupTrends]
    exact groupTrendsFold_keys_nodup (normGroupBy groupBy) data [] (by simp)
  exact ((exchSort_perm (fun r : TrendRecord => r.period) _).map
    (fun r => r.period)).nodup_iff.mpr hnd

theorem analyzeTrends_sorted_strict (groupBy : String) (data : List TxnData) :
    (analyzeTrends groupBy data).Pairwise (fun a b => a.period < b.period) := by
  have hle : (analyzeTrends groupBy data).Pairwise
      (fun a b => a.period ≤ b.period) :=
    exchSort_sorted (fun r : TrendRecord => r.period) _
  have hne : (analyzeTrends groupBy data).Pairwise
      (fun a b => a.period ≠ b.period) :=
    List.pairwise_map.mp (analyzeTrends_keys_nodup groupBy data)
  exact (hle.and hne).imp (fun h => lt_of_le_of_ne h.1 h.2)

/-- C8: the trend lists returned by `AnalyzeSpendingTrends` and
`AnalyzeIncomeTrends` are strictly ascending by period-key string, so for any
two distinct periods `p1 < p2` in the output, the record for `p1` appears
before the record for `p2`. -/
theorem C8_period_ordering (groupBy : String) (data : List TxnData) :
    (analyzeSpendingTrends groupBy data).Pairwise
      (fun a b => a.period < b.period) ∧
    (analyzeIncomeTrends groupBy data).Pairwise
      (fun a b => a.period < b.period) :=
  ⟨analyzeTrends_sorted_strict groupBy data,
   analyzeTrends_sorted_strict groupBy data⟩

/-- C3 counterexample: with total spending fixed at 0, the savings rate is
100 for every positive income, so strictly increasing income from 1 to 2
does not strictly increase the rate — the claim's monotonicity clause fails
without a positivity assumption on spending. -/
theorem C3_counterexample :
    (0:ℚ) < 1 ∧ (1:ℚ) < 2 ∧
      ¬ savingsRateCalc 1 0 < savingsRateCalc 2 0 := by
  refine ⟨by norm_num, by norm_num, ?_⟩
  rw [savingsRateCalc, savingsRateCalc]
  norm_num

/-- C3 (amended): holding total spending fixed and **positive**, strictly
increasing a positive total income strictly increases the savings rate; and
for non-positive total income the savings rate is exactly 0. -/
theorem C3_savings_rate_monotonicity (S Sfix I₁ I₂ I₃ : ℚ)
    (hS : 0 < S) (h1 : 0 < I₁) (h12 : I₁ < I₂) (h3 : I₃ ≤ 0) :
    savingsRateCalc I₁ S < savingsRateCalc I₂ S ∧
      savingsRateCalc I₃ Sfix = 0 := by
  constructor
  · have h2 : 0 < I₂ := h1.trans h12
    rw [savingsRateCalc, if_pos h1, savingsRateCalc, if_pos h2,
      div_mul_eq_mul_div, div_mul_eq_mul_div, div_lt_div_iff₀ h1 h2]
    nlinarith [mul_lt_mul_of_pos_left h12 hS]
  · rw [savingsRateCalc, if_neg (not_lt.mpr h3)]

/-- Witness for the amended C3 at spending 1, incomes 2 < 4, and
non-positive income -1. -/
theorem C3_savings_rate_monotonicity_witness :
    savingsRateCalc 2 1 < savingsRateCalc 4 1 ∧
      savingsRateCalc (-1) 7 = 0 :=
  C3_savings_rate_monotonicity 1 7 2 4 (-1) (by norm_num) (by norm_num)
    (by norm_num) (by norm_num)

theorem review_title_not_tier (s : String) :
    ¬ ("Review Spending on " ++ s) ∈ tierTitles := by
  intro h
  simp only [tierTitles, List.mem_cons, List.not_mem_nil, or_false] at h
  rcases h with h | h | h | h
  all_goals
    have h2 := congrArg String.data h
    simp [String.data_append] at h2

theorem review_title_ne_negative (s : String) :
    ¬ ("Review Spending on " ++ s) = "Negative Savings Rate" := fun h =>
  review_title_not_tier s (h ▸ (by decide :
    ("Negative Savings Rate" : String) ∈ tierTitles))

theorem review_title_ne_any (s : String) :
    ¬ ("Review Spending on " ++ s) = "Negative Savings Rate" ∧
    ¬ ("Review Spending on " ++ s) = "Low Savings Rate" ∧
    ¬ ("Review Spending on " ++ s) = "Moderate Savings Rate" ∧
    ¬ ("Review Spending on " ++ s) = "Excellent Savings Rate" := by
  refine ⟨?_, ?_, ?_, ?_⟩
  all_goals
    intro h
    have h2 := congrArg String.data h
    simp [String.data_append] at h2

theorem filter_tier_categoryRecsOf (avgS : ℚ)
    (tc : List CategorySpending) (months : Int) :
    (categoryRecsOf avgS tc months).filter
      (fun r => r.title ∈ tierTitles) = [] := by
  cases tc with
  | nil => rfl
  | cons top rest =>
    have hrev := review_title_ne_any top.categoryName
    rw [categoryRecsOf]
    split_ifs <;>
      simp [List.filter_append, List.filter_cons, tierTitles, hrev.1,
        hrev.2.1, hrev.2.2.1, hrev.2.2.2]

theorem filter_tier_ratioRecsOf (avgI avgS : ℚ) :
    (ratioRecsOf avgI avgS).filter (fun r => r.title ∈ tierTitles) = [] := by
  rw [ratioRecsOf]
  split_ifs <;> simp [tierTitles]

theorem filter_tier_emergencyRecsOf (I S avgI avgS : ℚ) :
    (emergencyRecsOf I S avgI avgS).filter
      (fun r => r.title ∈ tierTitles) = [] := by
  rw [emergencyRecsOf]
  split_ifs <;> simp [tierTitles]

/-- C5: exactly one of the four savings-rate tier recommendations fires —
the tier-titled records in the output form exactly the singleton selected
by the if/else-if chain of the claim (`rate < 0`: high-priority warning
with impact `|spending − income|`; `0 ≤ rate < 10`: high-priority warning
with impact `income * 0.2 − netSavings`; `10 ≤ rate < 20`: medium-priority
suggestion with the same impact; `rate ≥ 20`: low-priority positive note
with impact 0) — and in the income=1000 / spending=1200 scenario the rate is
−20 and exactly one high-priority "Negative Savings Rate" recommendation
with impact 200 is produced. -/
theorem C5_savings_rate_tiers (savingsRate totalIncome totalSpending
    avgI avgS : ℚ) (topCategories : List CategorySpending) (months : Int) :
    ((generateSavingsRecommendations savingsRate totalIncome totalSpending
        avgI avgS topCategories months).filter
        (fun r => r.title ∈ tierTitles)) =
      [if savingsRate < 0 then
        ⟨"warning", "Negative Savings Rate", "high",
          |totalSpending - totalIncome|, [savingsRate]⟩
      else if savingsRate < 10 then
        ⟨"warning", "Low Savings Rate", "high",
          totalIncome * (2/10) - (totalIncome - totalSpending), [savingsRate]⟩
      else if savingsRate < 20 then
        ⟨"suggestion", "Moderate Savings Rate", "medium",
          totalIncome * (2/10) - (totalIncome - totalSpending), [savingsRate]⟩
      else
        ⟨"positive", "Excellent Savings Rate", "low", 0, [savingsRate]⟩] ∧
    (analyzeSavings 6 incomeScenario spendingScenario ["X"]).savingsRate =
      -20 ∧
    ((analyzeSavings 6 incomeScenario spendingScenario
        ["X"]).recommendations.filter
        (fun r => r.title = "Negative Savings Rate")) =
      [⟨"warning", "Negative Savings Rate", "high", 200, [-20]⟩] := by
  refine ⟨?_, ?_, ?_⟩
  · rw [generateSavingsRecommendations]
    simp only [List.filter_append, filter_tier_categoryRecsOf,
      filter_tier_ratioRecsOf, filter_tier_emergencyRecsOf, List.append_nil]
    rw [tierRecsOf]
    split_ifs <;> simp [tierTitles]
  · norm_num [analyzeSavings, savingsRateCalc, incomeScenario,
      spendingScenario]
  · have hrev := review_title_ne_negative "X"
    have hratio : ¬ ("High Spending Ratio" : String) =
        "Negative Savings Rate" := by decide
    have hemerg : ¬ ("Build Emergency Fund" : String) =
        "Negative Savings Rate" := by decide
    norm_num [analyzeSavings, savingsRateCalc, incomeScenario,
      spendingScenario, topCategoriesOf, catAmount, catCount,
      mkTopSpendingCategories, exchSort, exchSortFuel, bubblePass,
      generateSavingsRecommendations, tierRecsOf, categoryRecsOf,
      ratioRecsOf, emergencyRecsOf, List.filter_append, List.filter_cons,
      hrev, hratio, hemerg]

/-- C4 counterexample: `AnalyzeSavings` ranges over the Go category map,
whose enumeration order is randomized per run.  With two categories tied at
amount 100 the descending exchange sort (which swaps only on strict `<`)
keeps the enumeration order, so two runs that enumerate the same category
map in the two possible orders produce different recommendation lists (the
top-category rule names a different category), refuting determinism. -/
theorem C4_counterexample :
    (["A", "B"] : List String).Perm ["B", "A"] ∧
    (analyzeSavings 6 incomeScenario spendingTied ["A", "B"]).recommendations
      ≠
    (analyzeSavings 6 incomeScenario spendingTied
      ["B", "A"]).recommendations := by
  refine ⟨List.Perm.swap "B" "A" [], ?_⟩
  intro h
  have h2 := congrArg
    (fun l => l.map (fun r : SavingsRecommendation => r.title)) h
  have hAB : ¬ ("A" : String) = "B" := by decide
  have hBA : ¬ ("B" : String) = "A" := by decide
  have hrevAB : ¬ ("Review Spending on " ++ "A") =
      ("Review Spending on " ++ "B") := by decide
  norm_num [analyzeSavings, savingsRateCalc, incomeScenario, spendingTied,
    topCategoriesOf, catAmount, catCount, mkTopSpendingCategories,
    exchSort, exchSortFuel, bubblePass, generateSavingsRecommendations,
    tierRecsOf, categoryRecsOf, ratioRecsOf, emergencyRecsOf,
    List.filter_cons, OrderDual.toDual_lt_toDual, hAB, hBA, hrevAB] at h2

/-- C4 (amended): `AnalyzeSavings` is deterministic up to the category-map
enumeration order, and whenever the per-category spending totals are
pairwise distinct the result — including the top-5 ranking and the
recommendation list, in content and order — is independent of that
enumeration order, i.e. identical across repeated calls on the same input. -/
theorem C4_savings_determinism (months : Int)
    (incomeData spendingData : List TxnData) (order₁ order₂ : List String)
    (hperm : order₁.Perm order₂)
    (hnd : (order₁.map (fun n => catAmount spendingData n)).Nodup) :
    analyzeSavings months incomeData spendingData order₁ =
      analyzeSavings months incomeData spendingData order₂ := by
  have htop : topCategoriesOf spendingData order₁ =
      topCategoriesOf spendingData order₂ := by
    rw [topCategoriesOf, topCategoriesOf]
    apply exchSort_eq_of_perm
    · exact hperm.map _
    · rw [List.map_map]
      have hcomp : ((fun c : CatSpend => OrderDual.toDual c.amount) ∘
          (fun n => (⟨n, catAmount spendingData n,
            catCount spendingData n⟩ : CatSpend))) =
          (OrderDual.toDual ∘ (fun n => catAmount spendingData n)) := rfl
      rw [hcomp, ← List.map_map]
      exact hnd.map OrderDual.toDual.injective
  simp only [analyzeSavings, htop]

/-- Witness for the amended C4: with distinct category totals (100 and 50),
both enumeration orders of the category map yield the same analysis. -/
theorem C4_savings_determinism_witness :
    analyzeSavings 6 incomeScenario spendingDistinct ["A", "B"] =
      analyzeSavings 6 incomeScenario spendingDistinct ["B", "A"] :=
  C4_savings_determinism 6 incomeScenario spendingDistinct ["A", "B"]
    ["B", "A"] (List.Perm.swap "B" "A" [])
    (by
      have hAB : ¬ ("A" : String) = "B" := by decide
      have hBA : ¬ ("B" : String) = "A" := by decide
      norm_num [catAmount, spendingDistinct, List.filter_cons,
        List.nodup_cons, hAB, hBA])

theorem totalAssetsOf_nonneg (l : List Account) : 0 ≤ totalAssetsOf l := by
  induction l with
  | nil => simp [totalAssetsOf]
  | cons a rest ih =>
    rw [totalAssetsOf]
    split_ifs with h
    · linarith
    · linarith

theorem totalLiabilitiesOf_nonneg (l : List Account) :
    0 ≤ totalLiabilitiesOf l := by
  induction l with
  | nil => simp [totalLiabilitiesOf]
  | cons a rest ih =>
    rw [totalLiabilitiesOf]
    split_ifs with h
    · linarith
    · have := abs_nonneg a.balance
      linarith

/-- C6: `CalculateNetWorth` always satisfies
`net_worth = total_assets - total_liabilities` with both totals
non-negative, and an empty account list yields all-zero totals and
`account_count = 0`. -/
theorem C6_net_worth_identity (accounts : List Account) :
    (calculateNetWorth accounts).netWorth =
      (calculateNetWorth accounts).totalAssets -
        (calculateNetWorth accounts).totalLiabilities ∧
    0 ≤ (calculateNetWorth accounts).totalAssets ∧
    0 ≤ (calculateNetWorth accounts).totalLiabilities ∧
    (calculateNetWorth []).totalAssets = 0 ∧
    (calculateNetWorth []).totalLiabilities = 0 ∧
    (calculateNetWorth []).netWorth = 0 ∧
    (calculateNetWorth []).accountCount = 0 :=
  ⟨rfl, totalAssetsOf_nonneg accounts, totalLiabilitiesOf_nonneg accounts,
    rfl, rfl, by norm_num [calculateNetWorth, totalAssetsOf,
      totalLiabilitiesOf], rfl⟩

theorem totalAssetsOf_eq_filter_sum (l : List Account) :
    totalAssetsOf l =
      ((l.filter (fun a => a.balance ≥ 0)).map (fun a => a.balance)).sum := by
  induction l with
  | nil => simp [totalAssetsOf]
  | cons a rest ih =>
    rw [totalAssetsOf]
    by_cases h : a.balance ≥ 0 <;> simp [List.filter_cons, h, ih]

theorem totalLiabilitiesOf_eq_filter_sum (l : List Account) :
    totalLiabilitiesOf l =
      ((l.filter (fun a => ¬ a.balance ≥ 0)).map
        (fun a => |a.balance|)).sum := by
  induction l with
  | nil => simp [totalLiabilitiesOf]
  | cons a rest ih =>
    rw [totalLiabilitiesOf]
    by_cases h : a.balance ≥ 0
    · simp [List.filter_cons, h, ih, not_lt.mpr h]
    · simp [List.filter_cons, h, ih, not_le.mp h]

theorem byCurrencyOf_empty_key (l : List Account) : byCurrencyOf l "" = 0 := by
  induction l with
  | nil => rfl
  | cons a rest ih => simp [byCurrencyOf, ih]

theorem byCurrencyOf_eq_filter_sum (l : List Account) (c : String)
    (hc : c ≠ "") :
    byCurrencyOf l c =
      ((l.filter (fun a => a.currency = c)).map (fun a => a.balance)).sum := by
  induction l with
  | nil => simp [byCurrencyOf]
  | cons a rest ih =>
    rw [byCurrencyOf]
    by_cases h : a.currency = c
    · have : a.currency ≠ "" := by rw [h]; exact hc
      simp [List.filter_cons, h, this, hc, ih]
    · simp [List.filter_cons, h, ih]

/-- C7: `CalculateNetWorth` accumulates each account's signed balance into
the per-currency map (empty currency codes contribute to no currency key),
while empty-currency accounts still enter the asset/liability totals and
the summary list; and the three-account round-trip scenario yields
assets 500, liabilities 200, net worth 300 and `by_currency["USD"] = 300`. -/
theorem C7_net_worth_currency_map (accounts : List Account) (c : String) :
    (calculateNetWorth accounts).byCurrency c =
      (if c = "" then 0
       else ((accounts.filter (fun a => a.currency = c)).map
          (fun a => a.balance)).sum) ∧
    (calculateNetWorth accounts).accounts.length = accounts.length ∧
    (calculateNetWorth accounts).totalAssets =
      ((accounts.filter (fun a => a.balance ≥ 0)).map
        (fun a => a.balance)).sum ∧
    (calculateNetWorth accounts).totalLiabilities =
      ((accounts.filter (fun a => ¬ a.balance ≥ 0)).map
        (fun a => |a.balance|)).sum ∧
    (calculateNetWorth nwScenario).totalAssets = 500 ∧
    (calculateNetWorth nwScenario).totalLiabilities = 200 ∧
    (calculateNetWorth nwScenario).netWorth = 300 ∧
    (calculateNetWorth nwScenario).byCurrency "USD" = 300 := by
  have husd : ¬ ("USD" : String) = "" := by decide
  have hempty : ¬ ("" : String) = "USD" := by decide
  have husd2 : ("USD" : String) = "USD" := rfl
  refine ⟨?_, ?_, totalAssetsOf_eq_filter_sum accounts,
    totalLiabilitiesOf_eq_filter_sum accounts, ?_, ?_, ?_, ?_⟩
  · by_cases hc : c = ""
    · simp [calculateNetWorth, hc, byCurrencyOf_empty_key]
    · simp [calculateNetWorth, hc, byCurrencyOf_eq_filter_sum accounts c hc]
  · simp [calculateNetWorth, accountSummariesOf]
  · norm_num [calculateNetWorth, nwScenario, totalAssetsOf]
  · norm_num [calculateNetWorth, nwScenario, totalLiabilitiesOf]
  · norm_num [calculateNetWorth, nwScenario, totalAssetsOf,
      totalLiabilitiesOf]
  · norm_num [calculateNetWorth, nwScenario, byCurrencyOf, husd, hempty]

/-- C9: when the database layer fails, the cited handlers return an
error-marked payload whose text contains the error message together with a
`nil` Go error (never propagating the failure), and a successful call never
produces an error-marked result. -/
theorem C9_handler_error_policy (renderT : List TrendRecord → String)
    (renderN : NetWorth → String) (e : String) (trends : List TrendRecord)
    (nw : NetWorth) :
    handleAnalyzeSpendingTrends renderT (.error e) =
      (⟨["Error: " ++ e], true⟩, none) ∧
    handleAnalyzeSpendingTrends renderT (.ok trends) =
      (⟨[renderT trends], false⟩, none) ∧
    handleCalculateNetWorth renderN (.error e) =
      (⟨["Error: " ++ e], true⟩, none) ∧
    handleCalculateNetWorth renderN (.ok nw) =
      (⟨[renderN nw], false⟩, none) ∧
    (∀ r : Except String (List TrendRecord),
      (handleAnalyzeSpendingTrends renderT r).2 = none) ∧
    (∀ r : Except String NetWorth,
      (handleCalculateNetWorth renderN r).2 = none) := by
  refine ⟨rfl, rfl, rfl, rfl, ?_, ?_⟩
  · intro r
    cases r <;> rfl
  · intro r
    cases r <;> rfl

/-- C10: in `handleListTransactions` a supplied limit of 0 is normalized to
50 — identical to the omitted-parameter default — while a negative limit is
passed through to the transaction query unchanged. -/
theorem C10_limit_normalization :
    listTransactionsQueryLimit (some 0) = 50 ∧
    listTransactionsQueryLimit none = 50 ∧
    ∀ n : Int, n < 0 → listTransactionsQueryLimit (some n) = n := by
  refine ⟨rfl, rfl, ?_⟩
  intro n hn
  rw [listTransactionsQueryLimit]
  simp only [Option.getD_some]
  rw [if_neg (by omega)]

/-- Witness for C10 at the negative limit −7, which reaches the query
unchanged. -/
theorem C10_limit_normalization_witness :
    listTransactionsQueryLimit (some (-7)) = -7 :=
  C10_limit_normalization.2.2 (-7) (by norm_num)

end MoneyWiz
